import Mathlib

/-!
A shallow embedding of the `binr` package (binr.go): path resolution,
checksum-verified download and content-addressed caching, and
version-aware symlink management.  Pure data and state-passing functions
mirror the Go source; network and hashing effects are supplied by
explicit oracle values.  Theorems at the end settle the frozen claims.
-/

namespace Binr

/-! ## String helpers modelling Go's strings/filepath functions

Strings are manipulated through their character lists so that the
definitions compute by structural recursion (kernel-reducible) and admit
generic lemmas.
-/

/-- Model of Go `strings.HasPrefix s pre`. -/
def goHasPre (s pre : String) : Bool :=
  pre.data.isPrefixOf s.data

/-- Model of Go `strings.TrimPrefix s pre`: drops `pre` when it is a
prefix of `s`, otherwise returns `s` unchanged. -/
def goTrimPre (s pre : String) : String :=
  if goHasPre s pre then String.mk (s.data.drop pre.data.length) else s

/-- Model of Go `strings.TrimSpace`. -/
def goTrim (s : String) : String :=
  String.mk (((s.data.dropWhile Char.isWhitespace).reverse.dropWhile
    Char.isWhitespace).reverse)

/-- Whether a path is absolute (begins with a slash), as used by
`filepath.Abs` to decide whether to prepend the working directory. -/
def goIsAbs (p : String) : Bool :=
  p.data.head? = some '/'

/-- Model of `filepath.Join a b` for the path components produced by this
program (components free of separators and dot segments, plus the literal
`"."` base directory and possibly-empty final components): empty and `"."`
left operands vanish, an empty right operand vanishes, and otherwise the
components are joined with a slash. -/
def goJoin2 (a b : String) : String :=
  if a = "" ∨ a = "." then b
  else if b = "" then a
  else a ++ "/" ++ b

/-- Model of `filepath.Dir` on the slash-joined absolute paths built by
this program: everything before the last slash. -/
def dirname (p : String) : String :=
  String.mk (((p.data.reverse.dropWhile (· ≠ '/')).drop 1).reverse)

/-! ## Semantic versions

Model of the external `github.com/Masterminds/semver` (v1) library as used
by the source: `NewVersion` parses an optional leading `v`, one to three
dot-separated numeric components, an optional `-prerelease` and an optional
`+metadata` (wildcard components `x`/`X`/`*` are rejected by the library's
integer conversion, matching `digitsOk` below; the library additionally
restricts prerelease/metadata to an alphanumeric charset, which this model
does not re-check).  `GreaterThan` compares major, minor, patch and then
prerelease, ignoring metadata; a release without prerelease outranks one
with it.  The prerelease-vs-prerelease tiebreak is modelled as plain string
comparison, exercised by none of the claims. -/

structure SemVer where
  major : Nat
  minor : Nat
  patch : Nat
  pre : String
  meta : String
deriving DecidableEq, Repr

/-- Split a character list on a separator character. -/
def splitOnChar (c : Char) (l : List Char) : List (List Char) :=
  l.foldr
    (fun ch acc =>
      match acc with
      | [] => [[ch]]
      | cur :: rest => if ch = c then [] :: cur :: rest else (ch :: cur) :: rest)
    [[]]

/-- A nonempty all-digit component (the only form `strconv.ParseInt`
accepts from the semver regex's capture groups). -/
def digitsOk (l : List Char) : Bool :=
  !l.isEmpty && l.all (·.isDigit)

/-- Decimal value of an all-digit character list. -/
def natOf (l : List Char) : Nat :=
  l.foldl (fun n c => n * 10 + (c.toNat - 48)) 0

/-- Parse the part before any `+metadata`: numeric core then optional
`-prerelease`. -/
def parseCore (l : List Char) (meta : String) : Option SemVer :=
  let core := l.takeWhile (· ≠ '-')
  let rest := l.dropWhile (· ≠ '-')
  let pre := rest.drop 1
  if rest ≠ [] ∧ pre = [] then none
  else
    let prs := String.mk pre
    match splitOnChar '.' core with
    | [a] => if digitsOk a then some ⟨natOf a, 0, 0, prs, meta⟩ else none
    | [a, b] =>
        if digitsOk a ∧ digitsOk b then some ⟨natOf a, natOf b, 0, prs, meta⟩
        else none
    | [a, b, c] =>
        if digitsOk a ∧ digitsOk b ∧ digitsOk c then
          some ⟨natOf a, natOf b, natOf c, prs, meta⟩
        else none
    | _ => none

/-- Model of `semver.NewVersion`. -/
def parseSemver (s : String) : Option SemVer :=
  let l := if s.data.head? = some 'v' then s.data.drop 1 else s.data
  match splitOnChar '+' l with
  | [core] => parseCore core ""
  | [core, meta] => if meta = [] then none else parseCore core (String.mk meta)
  | _ => none

/-- Prerelease tiebreak: equal, or the empty (release) prerelease wins. -/
def cmpPre (a b : String) : Ordering :=
  if a = b then .eq
  else if a = "" then .gt
  else if b = "" then .lt
  else compare a b

/-- Model of `semver.Version.Compare` (metadata ignored). -/
def cmpVer (x y : SemVer) : Ordering :=
  ((compare x.major y.major).then
    ((compare x.minor y.minor).then
      ((compare x.patch y.patch).then (cmpPre x.pre y.pre))))

/-- Model of `semver.Version.GreaterThan`. -/
def greaterThan (x y : SemVer) : Bool :=
  cmpVer x y = .gt

example : parseSemver "v1.2.0" = some ⟨1, 2, 0, "", ""⟩ := by decide
example : parseSemver "bar" = none := by decide
example : parseSemver "bar-v1.0.0" = none := by decide
example : parseSemver "" = none := by decide
example : greaterThan ⟨1, 2, 0, "", ""⟩ ⟨1, 0, 0, "", ""⟩ = true := by decide

/-! ## Environment and path resolution -/

/-- The process environment read by `dotfilesPath` and `filepath.Abs`:
the `XDG_CONFIG_HOME` variable (empty when unset), whether
`os.UserHomeDir` errors, the home directory, and the working directory. -/
structure Env where
  xdg : String
  homeErr : Bool
  home : String
  cwd : String
deriving DecidableEq, Repr

/-- Model of `dotfilesPath`: `~/.config` by default, `XDG_CONFIG_HOME` if
set, and the relative path `"."` when there is neither a home directory
nor an `XDG_CONFIG_HOME`. -/
def dotfilesPath (env : Env) : String :=
  if env.homeErr = true ∧ env.xdg = "" then "."
  else if env.xdg ≠ "" then env.xdg
  else goJoin2 env.home ".config"

/-- Model of `filepath.Abs`: prepend the working directory to relative
paths. -/
def absPath (cwd p : String) : String :=
  if goIsAbs p then p else goJoin2 cwd p

/-- Errors returned by the modelled functions, one constructor per
distinct error construction site in the source. -/
inductive GoErr where
  | requiresNamespace
  | requiresCommand
  | requiresVersion
  | invalidSemver
  | requiresSource
  | updateUnimplemented
  | pathRequiresNamespace
  | pathRequiresCommand
  | pathInvalidSemver
  | sourceErr
  | checksumHTTP
  | downloadExists
  | downloadHTTP
  | checksumMismatch
  | mkdirExists (dir : String)
  | symlinkExists (path : String)
  | symlinkNoDir (path : String)
  | readDirErr
  | isNewerInvalidSemver (v : String)
  | unparseableFilename (name : String)
deriving DecidableEq, Repr

deriving instance DecidableEq for Except

/-- The path value `Path` produces on success. -/
def pathOf (env : Env) (ns cmd version : String) : String :=
  let cmd' := if version ≠ "" then cmd ++ "-" ++ version else cmd
  absPath env.cwd (goJoin2 (goJoin2 (goJoin2 (dotfilesPath env) "binr") ns) cmd')

/-- Model of `Path`: validates arguments and computes the absolute
namespaced path (versioned when a version is supplied). -/
def Path (env : Env) (ns cmd version : String) : Except GoErr String :=
  if ns = "" then .error .pathRequiresNamespace
  else if cmd = "" then .error .pathRequiresCommand
  else if version ≠ "" ∧ (parseSemver version).isNone then .error .pathInvalidSemver
  else .ok (pathOf env ns cmd version)

example : Path ⟨"/cfg", false, "/h", "/w"⟩ "myapp" "mybin" "v1.0.0" =
    .ok "/cfg/binr/myapp/mybin-v1.0.0" := by decide
example : Path ⟨"", true, "", "/w"⟩ "myapp" "mybin" "" =
    .ok "/w/binr/myapp/mybin" := by decide

/-! ## The namespace directory -/

/-- One entry of the namespace directory as seen by `os.ReadDir`:
its name, whether it is a directory, and its symlink target when it is a
symlink (`none` for regular files). -/
structure DirEntry where
  name : String
  isDirectory : Bool
  target : Option String
deriving DecidableEq, Repr

/-- The namespace directory `<dotfiles>/binr/<namespace>`: whether it
exists and, when it does, its entries in directory-listing order. -/
structure NsDir where
  present : Bool
  entries : List DirEntry
deriving DecidableEq, Repr

/-- Model of `os.Mkdir dir` (the parent `<dotfiles>/binr` exists after
`setup`): fails when the directory already exists, creating it empty
otherwise. -/
def osMkdir (d : NsDir) (dir : String) : Except GoErr NsDir :=
  if d.present = true then .error (.mkdirExists dir)
  else .ok ⟨true, []⟩

/-- Model of `os.Symlink target path` for a path inside the namespace
directory (`name` is the path's basename): fails when an entry with the
same name already exists. -/
def osSymlink (d : NsDir) (target name : String) : Except GoErr NsDir :=
  if d.present = false then .error (.symlinkNoDir name)
  else if d.entries.any (fun e => e.name = name) then .error (.symlinkExists name)
  else .ok ⟨true, d.entries ++ [⟨name, false, some target⟩]⟩

/-- Outcome of a Go computation that can error or dereference nil. -/
inductive Res (α : Type) where
  | ok (a : α)
  | err (e : GoErr)
  | panicked
deriving DecidableEq, Repr

/-- The loop body of `isNewer`: scan the directory entries, skipping
directories and names without the `<command>-` prefix, failing on a
suffix that is not a semver, and tracking the highest version seen. -/
def scanHighest (cmd : String) : List DirEntry → Option SemVer → Res (Option SemVer)
  | [], acc => .ok acc
  | e :: rest, acc =>
    if e.isDirectory = true then scanHighest cmd rest acc
    else if goHasPre e.name (cmd ++ "-") = false then scanHighest cmd rest acc
    else
      match parseSemver (goTrimPre e.name (cmd ++ "-")) with
      | none => .err (.unparseableFilename e.name)
      | some v =>
        let acc' :=
          match acc with
          | none => some v
          | some h => if greaterThan v h then some v else some h
        scanHighest cmd rest acc'

/-- Model of `isNewer`: parse the requested version, read the namespace
directory, scan for the highest already-linked version, and compare.
When no entry matched the prefix the accumulated `highest` is nil and the
final `highest.GreaterThan(version)` dereferences a nil pointer, modelled
as `.panicked`. -/
def isNewer (d : NsDir) (cmd versionStr : String) : Res Bool :=
  match parseSemver versionStr with
  | none => .err (.isNewerInvalidSemver versionStr)
  | some version =>
    if d.present = false then .err .readDirErr
    else
      match scanHighest cmd d.entries none with
      | .err e => .err e
      | .panicked => .panicked
      | .ok none => .panicked
      | .ok (some highest) => .ok (!greaterThan highest version)

/-- The relative symlink target `../.cache/<sum>` computed by `link`. -/
def linkTarget (sum : String) : String :=
  goJoin2 (goJoin2 ".." ".cache") sum

/-- The basename of the versioned link path computed by `Path`. -/
def linkName (cmd version : String) : String :=
  if version ≠ "" then cmd ++ "-" ++ version else cmd

/-- Model of `link`: compute the versioned path, create the namespace
directory (`os.Mkdir`, which fails when it already exists), create the
versioned symlink to `../.cache/<sum>`, and when `isNewer` reports the
version as newest also create the unversioned symlink.  Returns the
outcome together with the namespace directory state reached. -/
def link (env : Env) (d : NsDir) (ns cmd version sum : String) :
    Res Unit × NsDir :=
  match Path env ns cmd version with
  | .error e => (.err e, d)
  | .ok pathV =>
    match osMkdir d (dirname pathV) with
    | .error e => (.err e, d)
    | .ok d1 =>
      match osSymlink d1 (linkTarget sum) (linkName cmd version) with
      | .error e => (.err e, d1)
      | .ok d2 =>
        match isNewer d2 cmd version with
        | .err e => (.err e, d2)
        | .panicked => (.panicked, d2)
        | .ok false => (.ok (), d2)
        | .ok true =>
          match Path env ns cmd "" with
          | .error e => (.err e, d2)
          | .ok _pathU =>
            match osSymlink d2 (linkTarget sum) cmd with
            | .error e => (.err e, d2)
            | .ok d3 => (.ok (), d3)

example :
    isNewer ⟨true, [⟨"mybin-v1.0.0", false, some "../.cache/d1"⟩]⟩ "mybin" "v1.2.0" =
      .ok true := by decide
example :
    isNewer ⟨true, [⟨"mybin-v1.2.0", false, some "../.cache/d1"⟩]⟩ "mybin" "v1.0.0" =
      .ok false := by decide
example : isNewer ⟨true, []⟩ "mybin" "v1.0.0" = .panicked := by decide
example :
    isNewer ⟨true, [⟨"foo-bar", false, some "../.cache/d1"⟩]⟩ "foo" "v1.0.0" =
      .err (.unparseableFilename "foo-bar") := by decide
example :
    (link ⟨"/cfg", false, "/h", "/w"⟩ ⟨false, []⟩ "myapp" "mybin" "v1.2.0" "d1").1 =
      .ok () := by decide
example :
    (link ⟨"/cfg", false, "/h", "/w"⟩
      ⟨true, [⟨"mybin-v1.0.0", false, some "../.cache/d1"⟩,
              ⟨"mybin", false, some "../.cache/d1"⟩]⟩
      "myapp" "mybin" "v1.1.0" "d2").1 =
      .err (.mkdirExists "/cfg/binr/myapp") := by decide

/-! ## Cache store and orchestrator

File contents are identified by their SHA-256 hex digest: the network
oracle reports, for a successful download, the digest of the bytes it
delivered, which is exactly what `calculateChecksum` would compute from
the temporary file. -/

/-- The filesystem state seen by `cache`, `got` and `link`: the namespace
directory, the set of digests present in the content store
`<dotfiles>/binr/.cache`, and whether a file exists at the temporary
download path. -/
structure World where
  nsdir : NsDir
  store : List String
  tmpExists : Bool
deriving DecidableEq, Repr

/-- Network oracle for one `Get` call: the outcome of the caller's
`source` callback (a source URL and an optional checksum URL), the body
served by the checksum URL, and the download outcome (on success, the
digest of the delivered bytes).  Transport failures, non-200 statuses and
wrong content types are collapsed into the error cases. -/
structure Net where
  srcRes : Except Unit (String × String)
  sumBody : Except Unit String
  dlRes : Except Unit String
deriving DecidableEq, Repr

/-- Model of `getChecksum`: empty URL means no checksum; otherwise the
trimmed response body. -/
def getChecksum (net : Net) (url : String) : Except GoErr String :=
  if url = "" then .ok ""
  else
    match net.sumBody with
    | .error _ => .error .checksumHTTP
    | .ok body => .ok (goTrim body)

/-- Model of `download`: fails when a file already exists at the output
path, then streams the URL there; on success the temporary file exists
and holds bytes with the returned digest. -/
def download (w : World) (dl : Except Unit String) :
    Except GoErr (World × String) :=
  if w.tmpExists = true then .error .downloadExists
  else
    match dl with
    | .error _ => .error .downloadHTTP
    | .ok dlSum => .ok ({ w with tmpExists := true }, dlSum)

/-- Model of `verify`: compare the file's computed digest with the
expected one. -/
def verify (fileChecksum checksum : String) : Option GoErr :=
  if fileChecksum ≠ checksum then some .checksumMismatch else none

/-- Model of `cached`: a nonempty checksum already present in the content
store. -/
def cached (w : World) (checksum : String) : Prop :=
  checksum ≠ "" ∧ checksum ∈ w.store

instance (w : World) (checksum : String) : Decidable (cached w checksum) := by
  unfold cached
  infer_instance

/-- Result of `cache`: the named return values `(sum, done, err)` — with
`doneNonNil` recording whether the returned cleanup closure is non-nil —
the filesystem state reached, and whether a download was attempted. -/
structure CacheOut where
  sum : String
  doneNonNil : Bool
  err : Option GoErr
  w : World
  downloadAttempted : Bool
deriving DecidableEq, Repr

/-- Model of `cache`: on a cache hit return the zero-valued named
returns (empty digest, nil cleanup, nil error) without touching the
network; otherwise download to the temporary file, verify or self-compute
the checksum, and rename the file into the content store. -/
def cache (w : World) (dl : Except Unit String) (checksum : String) : CacheOut :=
  if cached w checksum then
    ⟨"", false, none, w, false⟩
  else
    match download w dl with
    | .error e => ⟨"", true, some e, w, true⟩
    | .ok (w1, dlSum) =>
      if checksum = "" then
        ⟨dlSum, true, none,
          { w1 with tmpExists := false, store := dlSum :: w1.store }, true⟩
      else
        match verify dlSum checksum with
        | some e => ⟨"", true, some e, w1, true⟩
        | none =>
          ⟨checksum, true, none,
            { w1 with tmpExists := false, store := checksum :: w1.store }, true⟩

/-- Model of `got`: `os.Stat` on the versioned path succeeds when the
directory has an entry of that name and, for a symlink, its relative
target resolves to an existing file (a digest in the content store, or
the cache directory itself for an empty-digest target). -/
def got (w : World) (name : String) : Bool :=
  w.nsdir.present &&
    w.nsdir.entries.any fun e =>
      e.name == name &&
        match e.target with
        | none => true
        | some t =>
          if goHasPre t "../.cache/" then
            w.store.contains (String.mk (t.data.drop 10))
          else t == "../.cache"

/-- Result of a `Get` call: the outcome, the filesystem state reached,
whether the cleanup returned by `cache` was invoked before returning, and
whether `link` was reached. -/
structure GetOut where
  res : Res String
  w : World
  cleanupInvoked : Bool
  linkReached : Bool
deriving DecidableEq, Repr

/-- The deferred `cleanup()` at the end of `Get`: a non-nil cleanup
removes the temporary file if it still exists; calling a nil cleanup
closure panics. -/
def runCleanup (done : Bool) (w : World) (r : Res String) (lr : Bool) : GetOut :=
  if done = true then ⟨r, { w with tmpExists := false }, true, lr⟩
  else ⟨.panicked, w, false, lr⟩

/-- Whether `Get` was handed the functional option `WithUpdate`. -/
structure Config where
  update : Bool
deriving DecidableEq, Repr

/-- Model of `Get`: validate the arguments, resolve the versioned path,
short-circuit when already installed, consult the source for URLs, fetch
the optional checksum, call `cache` — returning immediately on a cache
error, before the deferred cleanup is registered — then `link`, and
finally run the deferred cleanup. -/
def Get (env : Env) (w : World) (net : Net) (hasSource : Bool) (cfg : Config)
    (ns cmd version : String) : GetOut :=
  if ns = "" then ⟨.err .requiresNamespace, w, false, false⟩
  else if cmd = "" then ⟨.err .requiresCommand, w, false, false⟩
  else if version = "" then ⟨.err .requiresVersion, w, false, false⟩
  else if (parseSemver version).isNone then ⟨.err .invalidSemver, w, false, false⟩
  else if hasSource = false then ⟨.err .requiresSource, w, false, false⟩
  else if cfg.update = true then ⟨.err .updateUnimplemented, w, false, false⟩
  else
    match Path env ns cmd version with
    | .error e => ⟨.err e, w, false, false⟩
    | .ok path =>
      if got w (cmd ++ "-" ++ version) = true then ⟨.ok path, w, false, false⟩
      else
        match net.srcRes with
        | .error _ => ⟨.err .sourceErr, w, false, false⟩
        | .ok (_url, sumURL) =>
          match getChecksum net sumURL with
          | .error e => ⟨.err e, w, false, false⟩
          | .ok sum0 =>
            let c := cache w net.dlRes sum0
            match c.err with
            | some e => ⟨.err e, c.w, false, false⟩
            | none =>
              match link env c.w.nsdir ns cmd version c.sum with
              | (.err e, d2) =>
                runCleanup c.doneNonNil { c.w with nsdir := d2 } (.err e) true
              | (.panicked, d2) => ⟨.panicked, { c.w with nsdir := d2 }, c.doneNonNil, true⟩
              | (.ok _, d2) =>
                runCleanup c.doneNonNil { c.w with nsdir := d2 } (.ok path) true

/-- A reference environment: `XDG_CONFIG_HOME=/cfg`, home available,
working directory `/w`. -/
def env0 : Env := ⟨"/cfg", false, "/h", "/w"⟩

example :
    Get env0 ⟨⟨false, []⟩, [], false⟩ ⟨.ok ("u1", ""), .error (), .ok "d1"⟩
      true ⟨false⟩ "myapp" "mybin" "v1.2.0" =
      ⟨.ok "/cfg/binr/myapp/mybin-v1.2.0",
        ⟨⟨true, [⟨"mybin-v1.2.0", false, some "../.cache/d1"⟩,
                 ⟨"mybin", false, some "../.cache/d1"⟩]⟩, ["d1"], false⟩,
        true, true⟩ := by decide

/-! ## Helper lemmas -/

theorem data_append (a b : String) : (a ++ b).data = a.data ++ b.data := by
  cases a; cases b; rfl

theorem mk_data (s : String) : String.mk s.data = s := rfl

theorem parseSemver_empty : parseSemver "" = none := by decide

theorem isPrefixOf_self_append (l m : List Char) : l.isPrefixOf (l ++ m) = true := by
  induction l with
  | nil => simp [List.isPrefixOf]
  | cons c t ih => simp [List.isPrefixOf, ih]

theorem goHasPre_append (a b : String) : goHasPre (a ++ b) a = true := by
  unfold goHasPre
  rw [data_append]
  exact isPrefixOf_self_append _ _

theorem drop_len_append (l m : List Char) : (l ++ m).drop l.length = m := by
  induction l with
  | nil => rfl
  | cons c t ih => simp [ih]

theorem goTrimPre_append (a b : String) : goTrimPre (a ++ b) a = b := by
  unfold goTrimPre
  rw [goHasPre_append, if_pos rfl, data_append, drop_len_append]

theorem data_ne_nil {s : String} (h : s ≠ "") : s.data ≠ [] := by
  intro hd
  apply h
  cases s with
  | mk l => cases hd; rfl

theorem head?_append (a b : String) (h : a.data ≠ []) :
    (a ++ b).data.head? = a.data.head? := by
  rw [data_append]
  cases hd : a.data with
  | nil => exact absurd hd h
  | cons c t => simp

theorem append_ne_empty (a b : String) (h : a ≠ "") : a ++ b ≠ "" := by
  intro he
  apply data_ne_nil h
  have := congrArg String.data he
  rw [data_append] at this
  exact (List.append_eq_nil.mp this).1

theorem ne_of_head? {a b : String} (h : a.data.head? ≠ b.data.head?) : a ≠ b := by
  intro he
  exact h (by rw [he])

theorem goJoin2_of_ne (a b : String) (ha1 : a ≠ "") (ha2 : a ≠ ".") (hb : b ≠ "") :
    goJoin2 a b = a ++ "/" ++ b := by
  unfold goJoin2
  rw [if_neg (by simp [ha1, ha2]), if_neg hb]

/-- A `Path` call with valid arguments resolves to `pathOf`. -/
theorem Path_ok_of (env : Env) (ns cmd ver : String) (v : SemVer)
    (hns : ns ≠ "") (hcmd : cmd ≠ "") (hv : parseSemver ver = some v) :
    Path env ns cmd ver = .ok (pathOf env ns cmd ver) := by
  unfold Path
  rw [if_neg hns, if_neg hcmd, if_neg (by simp [hv])]

/-- A versionless `Path` call with nonempty namespace and command
resolves to `pathOf`. -/
theorem Path_ok_empty (env : Env) (ns cmd : String)
    (hns : ns ≠ "") (hcmd : cmd ≠ "") :
    Path env ns cmd "" = .ok (pathOf env ns cmd "") := by
  unfold Path
  rw [if_neg hns, if_neg hcmd, if_neg (by simp)]

/-- A successful `Path` call implies nonempty namespace and command. -/
theorem Path_ok_args {env : Env} {ns cmd ver p : String}
    (h : Path env ns cmd ver = .ok p) : ns ≠ "" ∧ cmd ≠ "" := by
  unfold Path at h
  constructor
  · intro hns; rw [if_pos hns] at h; cases h
  · intro hcmd
    by_cases hns : ns = ""
    · rw [if_pos hns] at h; cases h
    · rw [if_neg hns, if_pos hcmd] at h; cases h

/-- `scanHighest` steps over a directory entry. -/
theorem scanHighest_cons_dir {a : DirEntry} (cmd : String) (t : List DirEntry)
    (acc : Option SemVer) (hd : a.isDirectory = true) :
    scanHighest cmd (a :: t) acc = scanHighest cmd t acc := by
  simp only [scanHighest]
  rw [if_pos hd]

/-- `scanHighest` steps over a name without the `<command>-` prefix. -/
theorem scanHighest_cons_nopre {a : DirEntry} (cmd : String) (t : List DirEntry)
    (acc : Option SemVer) (hd : a.isDirectory = false)
    (hp : goHasPre a.name (cmd ++ "-") = false) :
    scanHighest cmd (a :: t) acc = scanHighest cmd t acc := by
  simp only [scanHighest]
  rw [if_neg (by simp [hd]), if_pos hp]

/-- `scanHighest` fails on a prefixed name whose suffix is not a semver. -/
theorem scanHighest_cons_bad {a : DirEntry} (cmd : String) (t : List DirEntry)
    (acc : Option SemVer) (hd : a.isDirectory = false)
    (hp : goHasPre a.name (cmd ++ "-") = true)
    (hb : parseSemver (goTrimPre a.name (cmd ++ "-")) = none) :
    scanHighest cmd (a :: t) acc = .err (.unparseableFilename a.name) := by
  simp only [scanHighest]
  rw [if_neg (by simp [hd]), if_neg (by simp [hp]), hb]

/-- `scanHighest` accumulates a prefixed name with a parseable suffix. -/
theorem scanHighest_cons_good {a : DirEntry} (cmd : String) (t : List DirEntry)
    (acc : Option SemVer) (v : SemVer) (hd : a.isDirectory = false)
    (hp : goHasPre a.name (cmd ++ "-") = true)
    (hg : parseSemver (goTrimPre a.name (cmd ++ "-")) = some v) :
    scanHighest cmd (a :: t) acc =
      scanHighest cmd t
        (match acc with
         | none => some v
         | some h => if greaterThan v h then some v else some h) := by
  simp only [scanHighest]
  rw [if_neg (by simp [hd]), if_neg (by simp [hp]), hg]

/-- A directory entry that makes `isNewer` fail for `cmd`: not a
directory, carries the `<cmd>-` prefix, and its suffix is not a semver. -/
def Offending (cmd : String) (e : DirEntry) : Prop :=
  e.isDirectory = false ∧ goHasPre e.name (cmd ++ "-") = true ∧
    parseSemver (goTrimPre e.name (cmd ++ "-")) = none

instance (cmd : String) (e : DirEntry) : Decidable (Offending cmd e) := by
  unfold Offending
  infer_instance

/-- When every entry lacks the `<cmd>-` prefix, the scan keeps its
accumulator. -/
theorem scanHighest_all_skip (cmd : String) (l : List DirEntry)
    (acc : Option SemVer)
    (h : ∀ e ∈ l, goHasPre e.name (cmd ++ "-") = false) :
    scanHighest cmd l acc = .ok acc := by
  induction l with
  | nil => rfl
  | cons a t ih =>
    have ht : ∀ e ∈ t, goHasPre e.name (cmd ++ "-") = false :=
      fun e he => h e (List.mem_cons_of_mem _ he)
    by_cases hd : a.isDirectory = true
    · rw [scanHighest_cons_dir cmd t acc hd]
      exact ih ht
    · rw [scanHighest_cons_nopre cmd t acc (by simpa using hd)
        (h a (List.mem_cons_self a t))]
      exact ih ht

/-- When some entry is offending, the scan fails naming an offending
entry (the first such in directory order). -/
theorem scanHighest_offending (cmd : String) (l : List DirEntry)
    (acc : Option SemVer) (h : ∃ e ∈ l, Offending cmd e) :
    ∃ e ∈ l, Offending cmd e ∧
      scanHighest cmd l acc = .err (.unparseableFilename e.name) := by
  induction l generalizing acc with
  | nil => simp at h
  | cons a t ih =>
    by_cases hd : a.isDirectory = true
    · have h' : ∃ e ∈ t, Offending cmd e := by
        obtain ⟨e, he, hoff⟩ := h
        rcases List.mem_cons.mp he with heq | ht
        · subst heq; rw [hoff.1] at hd; cases hd
        · exact ⟨e, ht, hoff⟩
      obtain ⟨e, he, hoff, heq⟩ := ih acc h'
      refine ⟨e, List.mem_cons_of_mem _ he, hoff, ?_⟩
      rw [scanHighest_cons_dir cmd t acc hd, heq]
    · have hd' : a.isDirectory = false := by simpa using hd
      by_cases hp : goHasPre a.name (cmd ++ "-") = true
      · cases hb : parseSemver (goTrimPre a.name (cmd ++ "-")) with
        | none =>
          exact ⟨a, List.mem_cons_self a t, ⟨hd', hp, hb⟩,
            scanHighest_cons_bad cmd t acc hd' hp hb⟩
        | some v =>
          have h' : ∃ e ∈ t, Offending cmd e := by
            obtain ⟨e, he, hoff⟩ := h
            rcases List.mem_cons.mp he with heq | ht
            · subst heq; rw [hoff.2.2] at hb; cases hb
            · exact ⟨e, ht, hoff⟩
          obtain ⟨e, he, hoff, heq⟩ := ih
            (match acc with
              | none => some v
              | some hh => if greaterThan v hh then some v else some hh) h'
          refine ⟨e, List.mem_cons_of_mem _ he, hoff, ?_⟩
          rw [scanHighest_cons_good cmd t acc v hd' hp hb, heq]
      · have hp' : goHasPre a.name (cmd ++ "-") = false := by simpa using hp
        have h' : ∃ e ∈ t, Offending cmd e := by
          obtain ⟨e, he, hoff⟩ := h
          rcases List.mem_cons.mp he with heq | ht
          · subst heq; rw [hoff.2.1] at hp'; cases hp'
          · exact ⟨e, ht, hoff⟩
        obtain ⟨e, he, hoff, heq⟩ := ih acc h'
        refine ⟨e, List.mem_cons_of_mem _ he, hoff, ?_⟩
        rw [scanHighest_cons_nopre cmd t acc hd' hp', heq]

/-- `isNewer` on a directory with an offending entry fails naming an
offending entry. -/
theorem isNewer_offending (d : NsDir) (cmd ver : String) (v : SemVer)
    (hv : parseSemver ver = some v) (hpres : d.present = true)
    (h : ∃ e ∈ d.entries, Offending cmd e) :
    ∃ e ∈ d.entries, Offending cmd e ∧
      isNewer d cmd ver = .err (.unparseableFilename e.name) := by
  obtain ⟨e, he, hoff, heq⟩ := scanHighest_offending cmd d.entries none h
  refine ⟨e, he, hoff, ?_⟩
  unfold isNewer
  simp only [hv]
  rw [if_neg (by simp [hpres]), heq]

/-- The directory state right after `link` creates the versioned
symlink: present, with exactly that link. -/
theorem isNewer_after_versioned (cmd ver t : String) (v : SemVer)
    (hv : parseSemver ver = some v) :
    isNewer ⟨true, [⟨cmd ++ "-" ++ ver, false, some t⟩]⟩ cmd ver =
      .ok (!greaterThan v v) := by
  unfold isNewer
  simp only [hv]
  rw [if_neg (by simp)]
  rw [scanHighest_cons_good cmd [] none v rfl (goHasPre_append (cmd ++ "-") ver)
    (by rw [goTrimPre_append]; exact hv)]
  rfl

/-- `cache` with a nonempty, uncached checksum and a download whose
bytes hash differently fails with the mismatch error, leaving the
temporary file in place and the store untouched. -/
theorem cache_mismatch (w : World) (csum actual : String)
    (hne : csum ≠ "") (hmem : csum ∉ w.store)
    (htmp : w.tmpExists = false) (hmm : actual ≠ csum) :
    cache w (.ok actual) csum =
      ⟨"", true, some .checksumMismatch, { w with tmpExists := true }, true⟩ := by
  unfold cache cached download verify
  rw [if_neg (by simp [hmem]), if_neg (by simp [htmp])]
  simp only [if_neg hne, if_pos hmm]

/-! ## Claims -/

/-- C1: the claim says `Get` always invokes the cleanup returned by the
cache step before returning.  In the code the `defer cleanup()` is only
registered after the error check on `cache`, so when `cache` fails —
here with a checksum mismatch — `Get` returns without invoking the
cleanup (`cleanupInvoked = false`) and the partial download file is left
behind (`tmpExists = true`), even though `cache` did return a non-nil
cleanup callback (`doneNonNil = true`). -/
theorem c1_get_skips_cleanup_on_cache_error :
    Get env0 ⟨⟨false, []⟩, [], false⟩ ⟨.ok ("u", "su"), .ok "sumA", .ok "sumB"⟩
        true ⟨false⟩ "myapp" "mybin" "v1.0.0" =
      ⟨.err .checksumMismatch, ⟨⟨false, []⟩, [], true⟩, false, false⟩
    ∧ (cache ⟨⟨false, []⟩, [], false⟩ (.ok "sumB") "sumA").doneNonNil = true := by
  decide

/-- C2: the claim says a cache hit returns the existing checksum as the
digest together with a safely callable no-op cleanup.  In the code the
hit branch is a bare `return` of the zero-valued named results, so the
returned digest is the empty string and the cleanup is a nil function
(`doneNonNil = false`); no network access happens (`downloadAttempted =
false`) and no error is returned, as claimed.  Consequently `Get` on a
cache hit registers `defer cleanup()` with a nil closure and panics when
it returns. -/
theorem c2_cache_hit_returns_zero_values :
    cache ⟨⟨false, []⟩, ["aabbcc"], false⟩ (.ok "zz") "aabbcc" =
      ⟨"", false, none, ⟨⟨false, []⟩, ["aabbcc"], false⟩, false⟩
    ∧ (Get env0 ⟨⟨false, []⟩, ["aabbcc"], false⟩
        ⟨.ok ("u", "su"), .ok "aabbcc", .error ()⟩
        true ⟨false⟩ "myapp" "mybin" "v1.0.0").res = .panicked := by
  decide

/-- C3: the claim says `link` creates the parent directory if missing
and ignores an already-exists failure.  The code uses `os.Mkdir` and
returns its error unconditionally, so linking a second version of a
command into an existing namespace directory fails at the
directory-creation step with the already-exists error, leaving the
directory unchanged. -/
theorem c3_second_link_fails_mkdir :
    link env0
        ⟨true, [⟨"mybin-v1.0.0", false, some "../.cache/d1"⟩,
                ⟨"mybin", false, some "../.cache/d1"⟩]⟩
        "myapp" "mybin" "v1.1.0" "d2" =
      (.err (.mkdirExists "/cfg/binr/myapp"),
        ⟨true, [⟨"mybin-v1.0.0", false, some "../.cache/d1"⟩,
                ⟨"mybin", false, some "../.cache/d1"⟩]⟩) := by
  decide

/-- C4: the claim says `link` replaces an existing unversioned link
rather than failing.  In the code a call in which the unversioned link
already exists fails before reaching that step, at `os.Mkdir` on the
existing namespace directory; and the unversioned-link step itself is a
plain `os.Symlink`, which fails with an already-exists error on an
existing link instead of replacing it (there is no removal or atomic
swap anywhere in `link`). -/
theorem c4_unversioned_link_never_replaced :
    (link env0
        ⟨true, [⟨"mybin-v1.0.0", false, some "../.cache/d1"⟩,
                ⟨"mybin", false, some "../.cache/d1"⟩]⟩
        "myapp" "mybin" "v1.1.0" "d2").1 =
      .err (.mkdirExists "/cfg/binr/myapp")
    ∧ osSymlink
        ⟨true, [⟨"mybin-v1.0.0", false, some "../.cache/d1"⟩,
                ⟨"mybin", false, some "../.cache/d1"⟩]⟩
        (linkTarget "d2") "mybin" =
      .error (.symlinkExists "mybin") := by
  decide

/-- C5: the claim says that after installing two distinct versions in
either order the unversioned link targets the maximum version.  In the
code the second `Get` for the same (namespace, command) always fails at
`link`'s `os.Mkdir` on the now-existing namespace directory: installing
v1.0.0 and then v1.2.0, the first call succeeds, the second returns the
already-exists error, no `mybin-v1.2.0` link is created, and the
unversioned link still targets v1.0.0's content (`../.cache/d1`) — not
the maximum of the requested versions. -/
theorem c5_newer_second_install_fails :
    Get env0 ⟨⟨false, []⟩, [], false⟩ ⟨.ok ("u1", ""), .error (), .ok "d1"⟩
        true ⟨false⟩ "myapp" "mybin" "v1.0.0" =
      ⟨.ok "/cfg/binr/myapp/mybin-v1.0.0",
        ⟨⟨true, [⟨"mybin-v1.0.0", false, some "../.cache/d1"⟩,
                 ⟨"mybin", false, some "../.cache/d1"⟩]⟩, ["d1"], false⟩,
        true, true⟩
    ∧ Get env0
        ⟨⟨true, [⟨"mybin-v1.0.0", false, some "../.cache/d1"⟩,
                 ⟨"mybin", false, some "../.cache/d1"⟩]⟩, ["d1"], false⟩
        ⟨.ok ("u2", ""), .error (), .ok "d2"⟩
        true ⟨false⟩ "myapp" "mybin" "v1.2.0" =
      ⟨.err (.mkdirExists "/cfg/binr/myapp"),
        ⟨⟨true, [⟨"mybin-v1.0.0", false, some "../.cache/d1"⟩,
                 ⟨"mybin", false, some "../.cache/d1"⟩]⟩, ["d2", "d1"], false⟩,
        true, true⟩ := by
  decide

/-- C6 counterexample: with an offending entry `mybin-foo` in an
existing namespace directory, the `link` attempt does fail — but with
the directory-creation already-exists error, which does not name the
offending filename, because `os.Mkdir` aborts `link` before the
`isNewer` scan runs. -/
theorem c6_counterexample_link_fails_before_scan :
    (link env0 ⟨true, [⟨"mybin-foo", false, none⟩]⟩
        "myapp" "mybin" "v1.0.0" "d1").1 =
      .err (.mkdirExists "/cfg/binr/myapp")
    ∧ GoErr.mkdirExists "/cfg/binr/myapp" ≠
        GoErr.unparseableFilename "mybin-foo" := by
  decide

/-- C9 counterexample: with links of the distinct command `foo-bar`
(its unversioned link `foo-bar` and versioned link `foo-bar-v1.0.0`)
present, `link` for command `foo` fails — but with the
directory-creation already-exists error, not the unparseable-filename
(state-corruption) error the claim attributes to it, because `os.Mkdir`
aborts `link` before `isNewer` runs. -/
theorem c9_counterexample_link_fails_at_mkdir :
    (link env0
        ⟨true, [⟨"foo-bar", false, some "../.cache/d1"⟩,
                ⟨"foo-bar-v1.0.0", false, some "../.cache/d1"⟩]⟩
        "myapp" "foo" "v1.0.0" "d2").1 =
      .err (.mkdirExists "/cfg/binr/myapp")
    ∧ GoErr.mkdirExists "/cfg/binr/myapp" ≠
        GoErr.unparseableFilename "foo-bar" := by
  decide

/-- C9 (amended): `isNewer` for command `foo` misreads the valid links
of the distinct command `foo-bar` as corrupt — the suffixes `bar` and
`bar-v1.0.0` do not parse as semvers — and fails naming `foo-bar`;
`link` for `foo` on the same directory also fails, but earlier, with
the directory-creation already-exists error. -/
theorem c9_isNewer_misreads_other_command :
    isNewer
        ⟨true, [⟨"foo-bar", false, some "../.cache/d1"⟩,
                ⟨"foo-bar-v1.0.0", false, some "../.cache/d1"⟩]⟩
        "foo" "v1.0.0" =
      .err (.unparseableFilename "foo-bar")
    ∧ (link env0
        ⟨true, [⟨"foo-bar", false, some "../.cache/d1"⟩,
                ⟨"foo-bar-v1.0.0", false, some "../.cache/d1"⟩]⟩
        "myapp" "foo" "v1.0.0" "d2").1 =
      .err (.mkdirExists "/cfg/binr/myapp") := by
  decide

/-- C6 (amended): when the namespace directory holds a non-directory
entry with the `<command>-` prefix whose suffix is not a semver, the
`isNewer` scan fails with the state-corruption error naming an offending
entry; the `link` attempt for that command also fails, but earlier and
with a different error — `os.Mkdir`'s already-exists error on the
namespace directory — so the offending filename is never surfaced
through `link`. -/
theorem c6_isNewer_names_offending_file (env : Env) (d : NsDir)
    (ns cmd ver sum : String) (v : SemVer)
    (hns : ns ≠ "") (hcmd : cmd ≠ "") (hv : parseSemver ver = some v)
    (hpres : d.present = true)
    (hoff : ∃ e ∈ d.entries, Offending cmd e) :
    (∃ e ∈ d.entries, Offending cmd e ∧
        isNewer d cmd ver = .err (.unparseableFilename e.name))
    ∧ (link env d ns cmd ver sum).1 =
        .err (.mkdirExists (dirname (pathOf env ns cmd ver))) := by
  refine ⟨isNewer_offending d cmd ver v hv hpres hoff, ?_⟩
  unfold link
  simp only [Path_ok_of env ns cmd ver v hns hcmd hv]
  have hm : osMkdir d (dirname (pathOf env ns cmd ver)) =
      .error (.mkdirExists (dirname (pathOf env ns cmd ver))) := by
    unfold osMkdir
    rw [if_pos hpres]
  simp only [hm]

/-- C6 witness at a concrete state: the single entry `mybin-foo`. -/
theorem c6_witness_isNewer_names_offending_file :
    (∃ e ∈ ([⟨"mybin-foo", false, none⟩] : List DirEntry),
        Offending "mybin" e ∧
          isNewer ⟨true, [⟨"mybin-foo", false, none⟩]⟩ "mybin" "v1.0.0" =
            .err (.unparseableFilename e.name))
    ∧ (link env0 ⟨true, [⟨"mybin-foo", false, none⟩]⟩
        "myapp" "mybin" "v1.0.0" "d1").1 =
        .err (.mkdirExists (dirname (pathOf env0 "myapp" "mybin" "v1.0.0"))) :=
  c6_isNewer_names_offending_file env0 ⟨true, [⟨"mybin-foo", false, none⟩]⟩
    "myapp" "mybin" "v1.0.0" "d1" ⟨1, 0, 0, "", ""⟩
    (by decide) (by decide) (by decide) rfl
    ⟨⟨"mybin-foo", false, none⟩, by simp, by decide⟩

/-- C7: when the fetched expected checksum is nonempty, not already
cached, and differs from the digest of the downloaded bytes, `Get`
fails with the checksum-mismatch error; the namespace directory and the
content store are unchanged (the temporary file is not renamed into the
store and remains on disk) and `link` is never reached, so no versioned
link is created. -/
theorem c7_checksum_mismatch_not_promoted (env : Env) (w : World) (net : Net)
    (cfg : Config) (ns cmd ver url sumURL csum actual : String) (v : SemVer)
    (hns : ns ≠ "") (hcmd : cmd ≠ "") (hv : parseSemver ver = some v)
    (hupd : cfg.update = false)
    (hgot : got w (cmd ++ "-" ++ ver) = false)
    (hsrc : net.srcRes = .ok (url, sumURL))
    (hsum : getChecksum net sumURL = .ok csum)
    (hcs : csum ≠ "") (hmem : csum ∉ w.store)
    (htmp : w.tmpExists = false)
    (hdl : net.dlRes = .ok actual) (hmm : actual ≠ csum) :
    Get env w net true cfg ns cmd ver =
      ⟨.err .checksumMismatch, ⟨w.nsdir, w.store, true⟩, false, false⟩ := by
  have hvne : ver ≠ "" := by
    intro h
    rw [h, parseSemver_empty] at hv
    cases hv
  unfold Get
  rw [if_neg hns, if_neg hcmd, if_neg hvne, if_neg (by simp [hv]),
    if_neg (by simp), if_neg (by simp [hupd])]
  simp only [Path_ok_of env ns cmd ver v hns hcmd hv]
  rw [if_neg (by simp [hgot])]
  simp only [hsrc, hsum, hdl, cache_mismatch w csum actual hcs hmem htmp hmm]

/-- C7 witness at a concrete world and network. -/
theorem c7_witness_checksum_mismatch :
    Get env0 ⟨⟨false, []⟩, [], false⟩
        ⟨.ok ("u", "cs"), .ok "abc123", .ok "ffff"⟩
        true ⟨false⟩ "ns7" "cmd7" "v2.0.0" =
      ⟨.err .checksumMismatch, ⟨⟨false, []⟩, [], true⟩, false, false⟩ :=
  c7_checksum_mismatch_not_promoted env0 ⟨⟨false, []⟩, [], false⟩
    ⟨.ok ("u", "cs"), .ok "abc123", .ok "ffff"⟩ ⟨false⟩
    "ns7" "cmd7" "v2.0.0" "u" "cs" "abc123" "ffff" ⟨2, 0, 0, "", ""⟩
    (by decide) (by decide) (by decide) rfl (by decide) rfl (by decide)
    (by decide) (by simp) rfl rfl (by decide)

/-- `isNewer` on the directory state produced by `link`'s versioned
symlink never hits the nil-pointer dereference: the just-created link
matches the prefix and parses. -/
theorem isNewer_after_link_ne_panicked (cmd ver t : String) :
    isNewer ⟨true, [⟨linkName cmd ver, false, some t⟩]⟩ cmd ver ≠ .panicked := by
  cases hv : parseSemver ver with
  | none =>
    unfold isNewer
    simp only [hv]
    intro h
    cases h
  | some v =>
    have hne : ver ≠ "" := by
      intro h
      rw [h, parseSemver_empty] at hv
      cases hv
    unfold linkName
    rw [if_pos hne, isNewer_after_versioned cmd ver t v hv]
    intro h
    cases h

/-- C10: `isNewer` panics (nil `highest` dereference) whenever no entry
carries the `<command>-` prefix; but every `isNewer` call made by `link`
happens after `link` created the versioned symlink in a fresh directory,
so a matching, parseable entry exists and `link` can never reach the
panic. -/
theorem c10_isNewer_nil_deref_unreachable_from_link :
    (∀ (d : NsDir) (cmd ver : String) (v : SemVer),
        d.present = true → parseSemver ver = some v →
        (∀ e ∈ d.entries, goHasPre e.name (cmd ++ "-") = false) →
        isNewer d cmd ver = .panicked)
    ∧ ∀ (env : Env) (d : NsDir) (ns cmd ver sum : String),
        (link env d ns cmd ver sum).1 ≠ .panicked := by
  constructor
  · intro d cmd ver v hpres hv hnone
    unfold isNewer
    simp only [hv]
    rw [if_neg (by simp [hpres]), scanHighest_all_skip cmd d.entries none hnone]
  · intro env d ns cmd ver sum
    unfold link
    split
    · simp
    next pathV hP =>
      split
      · simp
      next d1 hm =>
        have hd1 : d1 = ⟨true, []⟩ := by
          unfold osMkdir at hm
          by_cases hp : d.present = true
          · rw [if_pos hp] at hm
            cases hm
          · rw [if_neg hp] at hm
            exact (Except.ok.inj hm).symm
        subst hd1
        have hs : osSymlink ⟨true, []⟩ (linkTarget sum) (linkName cmd ver) =
            .ok ⟨true, [⟨linkName cmd ver, false, some (linkTarget sum)⟩]⟩ := rfl
        simp only [hs]
        split
        · simp
        next hpan => exact absurd hpan (isNewer_after_link_ne_panicked cmd ver _)
        · simp
        next hok =>
          obtain ⟨hns, hcmd⟩ := Path_ok_args hP
          simp only [Path_ok_empty env ns cmd hns hcmd]
          split
          · simp
          · simp

/-- A string whose data has a head is nonempty. -/
theorem ne_empty_of_head? {s : String} {c : Char} (h : s.data.head? = some c) :
    s ≠ "" := by
  intro he
  rw [he] at h
  cases h

/-- C8: with no home directory and `XDG_CONFIG_HOME` unset, `Path` on a
nonempty namespace and command (version empty or a valid semver) returns
no error and yields the path `<cwd>/binr/<ns>/<cmd>[-<version>]`, which
is absolute because the working directory is. -/
theorem c8_homeless_path_rooted_at_cwd (env : Env) (ns cmd ver r : String)
    (hhome : env.homeErr = true) (hxdg : env.xdg = "")
    (hcwd : env.cwd = "/" ++ r) (hns : ns ≠ "") (hcmd : cmd ≠ "")
    (hver : ver = "" ∨ (parseSemver ver).isSome = true) :
    Path env ns cmd ver =
      .ok (env.cwd ++ "/" ++ ("binr" ++ "/" ++ ns ++ "/" ++
        (if ver ≠ "" then cmd ++ "-" ++ ver else cmd)))
    ∧ goIsAbs (env.cwd ++ "/" ++ ("binr" ++ "/" ++ ns ++ "/" ++
        (if ver ≠ "" then cmd ++ "-" ++ ver else cmd))) = true := by
  have hcwdne : env.cwd ≠ "" := by
    rw [hcwd]
    exact append_ne_empty _ _ (by decide)
  have hcwdhead : env.cwd.data.head? = some '/' := by
    rw [hcwd, head?_append "/" r (by decide)]
    decide
  have hcwddot : env.cwd ≠ "." := ne_of_head? (by rw [hcwdhead]; decide)
  have hcmdvne : (if ver ≠ "" then cmd ++ "-" ++ ver else cmd) ≠ "" := by
    by_cases hv : ver = ""
    · rw [if_neg (by simp [hv])]
      exact hcmd
    · rw [if_pos hv]
      exact append_ne_empty _ _ (append_ne_empty _ _ hcmd)
  have hXne : "binr" ++ "/" ++ ns ≠ "" := append_ne_empty _ _ (by decide)
  have hXhead : ("binr" ++ "/" ++ ns).data.head? = some 'b' := by
    rw [head?_append _ _ (by decide)]
    decide
  have hPhead : ("binr" ++ "/" ++ ns ++ "/" ++
      (if ver ≠ "" then cmd ++ "-" ++ ver else cmd)).data.head? = some 'b' := by
    rw [head?_append _ _ (data_ne_nil (append_ne_empty _ _ hXne)),
      head?_append _ _ (data_ne_nil hXne)]
    exact hXhead
  have hpath : pathOf env ns cmd ver =
      env.cwd ++ "/" ++ ("binr" ++ "/" ++ ns ++ "/" ++
        (if ver ≠ "" then cmd ++ "-" ++ ver else cmd)) := by
    simp only [pathOf, dotfilesPath]
    rw [if_pos ⟨hhome, hxdg⟩]
    rw [show goJoin2 "." "binr" = "binr" from by decide]
    rw [goJoin2_of_ne "binr" ns (by decide) (by decide) hns]
    rw [goJoin2_of_ne ("binr" ++ "/" ++ ns) _ hXne
      (ne_of_head? (by rw [hXhead]; decide)) hcmdvne]
    unfold absPath
    rw [if_neg (by unfold goIsAbs; rw [hPhead]; decide)]
    rw [goJoin2_of_ne env.cwd _ hcwdne hcwddot (ne_empty_of_head? hPhead)]
  refine ⟨?_, ?_⟩
  · rw [← hpath]
    rcases hver with hv | hv
    · subst hv
      exact Path_ok_empty env ns cmd hns hcmd
    · obtain ⟨v, hv'⟩ := Option.isSome_iff_exists.mp hv
      exact Path_ok_of env ns cmd ver v hns hcmd hv'
  · unfold goIsAbs
    rw [head?_append _ _ (data_ne_nil (append_ne_empty env.cwd "/" hcwdne)),
      head?_append _ _ (data_ne_nil hcwdne), hcwdhead]
    decide

/-- C8 witness at a concrete homeless environment. -/
theorem c8_witness_homeless_path :
    Path ⟨"", true, "", "/w"⟩ "myapp" "mybin" "v1.0.0" =
      .ok ("/w" ++ "/" ++ ("binr" ++ "/" ++ "myapp" ++ "/" ++
        (if "v1.0.0" ≠ "" then "mybin" ++ "-" ++ "v1.0.0" else "mybin")))
    ∧ goIsAbs ("/w" ++ "/" ++ ("binr" ++ "/" ++ "myapp" ++ "/" ++
        (if "v1.0.0" ≠ "" then "mybin" ++ "-" ++ "v1.0.0" else "mybin"))) = true :=
  c8_homeless_path_rooted_at_cwd ⟨"", true, "", "/w"⟩ "myapp" "mybin" "v1.0.0" "w"
    rfl rfl (by decide) (by decide) (by decide) (Or.inr (by decide))

/-- C10 witness: the panic at an empty (but existing) directory, and a
concrete `link` call that does not panic. -/
theorem c10_witness_nil_deref :
    isNewer ⟨true, []⟩ "foo" "v1.0.0" = .panicked
    ∧ (link env0 ⟨true, []⟩ "myapp" "foo" "v1.0.0" "d1").1 ≠ .panicked :=
  ⟨c10_isNewer_nil_deref_unreachable_from_link.1 ⟨true, []⟩ "foo" "v1.0.0"
      ⟨1, 0, 0, "", ""⟩ rfl (by decide) (by simp),
    c10_isNewer_nil_deref_unreachable_from_link.2 env0 ⟨true, []⟩
      "myapp" "foo" "v1.0.0" "d1"⟩

end Binr
